import Mathlib

/-
Verification of the experimental-feature flag core of webviz
(packages/webviz-core/src/components/ExperimentalFeatures.js).

The embedding models the flag catalog, the persisted override map, the
resolution of effective settings, and the write path with its subscriber
notification loop. External collaborators (the catalog provider, the
environment mode, the event logger) become explicit parameters, and the
persisted storage slot becomes an explicit field of a world state.
-/

namespace ExperimentalFeatures

/-- One catalog entry, mirroring the FeatureDescriptions value type of the
source: a display name, a description, and the two environment defaults. -/
structure FeatureDescription where
  name : String
  description : String
  developmentDefault : Bool
  productionDefault : Bool
deriving DecidableEq, Repr

/-- The feature catalog: an object keyed by flag id, embedded as an
association list in insertion order (FeatureDescriptions in the source). -/
abbrev FeatureDescriptions := List (String × FeatureDescription)

/-- The persisted object stored under EXPERIMENTAL_FEATURES_STORAGE_KEY:
flag id mapped to a raw stored string (FeatureStorage in the source; the
stored string is only trusted after validation at resolution time). -/
abbrev FeatureStorage := List (String × String)

/-- The resolved view of one flag (FeatureSettings value type). -/
structure ResolvedFeature where
  enabled : Bool
  manuallySet : Bool
deriving DecidableEq, Repr

/-- The full resolved settings object, keyed by flag id. -/
abbrev FeatureSettings := List (String × ResolvedFeature)

/-- Property lookup on an embedded object: the value at the first matching
key, or none when the key is absent (js member access yielding undefined). -/
def lookupKey {α : Type} : List (String × α) → String → Option α
  | [], _ => none
  | (k, v) :: rest, id => if k = id then some v else lookupKey rest id

/-- Property assignment on an embedded object: replace the value at an
existing key in place, or append the key at the end (js assignment order). -/
def setKey {α : Type} : List (String × α) → String → α → List (String × α)
  | [], id, v => [(id, v)]
  | (k, w) :: rest, id, v => if k = id then (k, v) :: rest else (k, w) :: setKey rest id v

/-- Property deletion on an embedded object (the js delete operator). -/
def delKey {α : Type} (m : List (String × α)) (id : String) : List (String × α) :=
  m.filter (fun e => e.1 != id)

/-- Embeds getDefaultKey: the NODE_ENV check selects which default field of
a descriptor applies, with the mode passed explicitly as isProduction. -/
def getDefaultFor (isProduction : Bool) (d : FeatureDescription) : Bool :=
  if isProduction then d.productionDefault else d.developmentDefault

/-- The loop body of getExperimentalFeatureSettings for one catalog id:
a stored value equal to alwaysOn or alwaysOff is a manual override; any
other value (or no entry) falls back to the environment default. -/
def resolveFeature (isProduction : Bool) (featureStorage : FeatureStorage)
    (id : String) (d : FeatureDescription) : ResolvedFeature :=
  let ov := lookupKey featureStorage id
  if ov == some "alwaysOn" || ov == some "alwaysOff" then
    { enabled := ov == some "alwaysOn", manuallySet := true }
  else
    { enabled := getDefaultFor isProduction d, manuallySet := false }

/-- Embeds getExperimentalFeatureSettings: reads the stored override map
(falling back to the empty object when the store yields nothing) and
resolves every id of the catalog in order. -/
def getExperimentalFeatureSettings (list : FeatureDescriptions) (isProduction : Bool)
    (stored : Option FeatureStorage) : FeatureSettings :=
  let featureStorage := stored.getD []
  list.map (fun e => (e.1, resolveFeature isProduction featureStorage e.1 e.2))

/-- Embeds getExperimentalFeature: resolves once and returns the effective
boolean, or false when the id has no entry in the resolved settings. -/
def getExperimentalFeature (list : FeatureDescriptions) (isProduction : Bool)
    (stored : Option FeatureStorage) (id : String) : Bool :=
  match lookupKey (getExperimentalFeatureSettings list isProduction stored) id with
  | none => false
  | some s => s.enabled

/-- Embeds useExperimentalFeature: the hook keeps the latest resolved
settings in its local state, so its read of a flag is the same resolution
applied to the current stored map, returning false for an unknown id. -/
def useExperimentalFeature (list : FeatureDescriptions) (isProduction : Bool)
    (stored : Option FeatureStorage) (id : String) : Bool :=
  match lookupKey (getExperimentalFeatureSettings list isProduction stored) id with
  | none => false
  | some s => s.enabled

/-- Observable steps of a call to the write path, in execution order: the
analytics event, the storage write, and one callback invocation per
subscriber recording the stored map visible to that callback. -/
inductive Event where
  | logged (feature value : String)
  | wrote (m : FeatureStorage)
  | notified (cb : Nat) (storedAtCall : Option FeatureStorage)
deriving DecidableEq, Repr

/-- Modelled from the spec: webviz-core/src/util/Storage is not among the
sources; per the Override Store contract its read yields the persisted map
(none when the key is absent or its content malformed, which the caller
turns into the empty object) and its write replaces the full map. The
storage slot is the stored field; subscribedComponents is the subscribers
list, holding callback identities in registration order. -/
structure World where
  stored : Option FeatureStorage
  subscribers : List Nat
deriving DecidableEq, Repr

/-- Outcome of a call to the write path: the final world, the observable
events in order, and whether an exception escaped to the caller. -/
structure SetResult where
  world : World
  events : List Event
  threw : Bool
deriving DecidableEq, Repr

/-- Embeds setExperimentalFeature: spread the stored map into a fresh
object, invoke the event logger (loggerThrows embeds a logger collaborator
that throws; the call sits before the write with no protection, so a throw
escapes and nothing is mutated), then delete or assign the entry for id,
write the whole map back, and invoke every subscribed callback in order. -/
def setExperimentalFeature (loggerThrows : Bool) (id value : String) (w : World) : SetResult :=
  let newSettings := w.stored.getD []
  if loggerThrows then
    { world := w, events := [], threw := true }
  else
    let newSettings := if value == "default" then delKey newSettings id else setKey newSettings id value
    { world := { stored := some newSettings, subscribers := w.subscribers }
      events := Event.logged id value :: Event.wrote newSettings ::
        w.subscribers.map (fun cb => Event.notified cb (some newSettings))
      threw := false }

/-- Embeds the onChange handler of the Radio in ExperimentalFeaturesModal:
a value other than default, alwaysOn or alwaysOff throws an invalid-value
error before setExperimentalFeature is ever called. -/
def radioOnChange (loggerThrows : Bool) (id value : String) (w : World) : SetResult :=
  if value != "default" && value != "alwaysOn" && value != "alwaysOff" then
    { world := w, events := [], threw := true }
  else
    setExperimentalFeature loggerThrows id value w

/-- The callbacks a run of the write path invoked, in invocation order. -/
def notifiedCallbacks (events : List Event) : List Nat :=
  events.filterMap (fun e =>
    match e with
    | Event.notified cb _ => some cb
    | _ => none)

example :
    getExperimentalFeatureSettings [("a", ⟨"A", "", true, false⟩)] true (some [("a", "alwaysOn")]) =
      [("a", ⟨true, true⟩)] := by decide

example :
    getExperimentalFeatureSettings [("a", ⟨"A", "", true, false⟩)] true (some [("a", "bogus")]) =
      [("a", ⟨false, false⟩)] := by decide

example :
    (setExperimentalFeature false "a" "alwaysOn" ⟨none, [1, 2]⟩).world.stored =
      some [("a", "alwaysOn")] := by decide

example :
    (setExperimentalFeature false "a" "default" ⟨some [("a", "alwaysOn"), ("b", "x")], []⟩).world.stored =
      some [("b", "x")] := by decide

theorem lookupKey_setKey_self {α : Type} (m : List (String × α)) (id : String) (v : α) :
    lookupKey (setKey m id v) id = some v := by
  induction m with
  | nil => simp [setKey, lookupKey]
  | cons e rest ih =>
    obtain ⟨k, w⟩ := e
    by_cases h : k = id
    · subst h; simp [setKey, lookupKey]
    · simp [setKey, lookupKey, h, ih]

theorem lookupKey_setKey_ne {α : Type} (m : List (String × α)) (id k : String) (v : α)
    (h : k ≠ id) : lookupKey (setKey m id v) k = lookupKey m k := by
  induction m with
  | nil =>
    simp [setKey, lookupKey]
    exact fun hx => h hx.symm
  | cons e rest ih =>
    obtain ⟨k0, w⟩ := e
    by_cases h0 : k0 = id
    · subst h0
      have hk : k0 ≠ k := fun hx => h hx.symm
      simp [setKey, lookupKey, hk]
    · by_cases h1 : k0 = k
      · subst h1; simp [setKey, lookupKey, h0]
      · simp [setKey, lookupKey, h0, h1, ih]

theorem lookupKey_delKey_self {α : Type} (m : List (String × α)) (id : String) :
    lookupKey (delKey m id) id = none := by
  induction m with
  | nil => simp [delKey, lookupKey]
  | cons e rest ih =>
    obtain ⟨k, w⟩ := e
    by_cases h : k = id
    · subst h; simpa [delKey, lookupKey] using ih
    · simpa [delKey, lookupKey, h] using ih

theorem lookupKey_delKey_ne {α : Type} (m : List (String × α)) (id k : String)
    (h : k ≠ id) : lookupKey (delKey m id) k = lookupKey m k := by
  induction m with
  | nil => simp [delKey, lookupKey]
  | cons e rest ih =>
    obtain ⟨k0, w⟩ := e
    by_cases h0 : k0 = id
    · subst h0
      have hk : k0 ≠ k := fun hx => h hx.symm
      simpa [delKey, lookupKey, hk] using ih
    · by_cases h1 : k0 = k
      · subst h1; simp [delKey, lookupKey, h0]
      · simpa [delKey, lookupKey, h0, h1] using ih

theorem setKey_setKey_self {α : Type} (m : List (String × α)) (id : String) (v : α) :
    setKey (setKey m id v) id v = setKey m id v := by
  induction m with
  | nil => simp [setKey]
  | cons e rest ih =>
    obtain ⟨k, w⟩ := e
    by_cases h : k = id
    · subst h; simp [setKey]
    · simp [setKey, h, ih]

theorem lookupKey_keyedMap {α β : Type} (f : String → α → β) (list : List (String × α))
    (id : String) (a : α) (hmem : (id, a) ∈ list) (hnodup : (list.map Prod.fst).Nodup) :
    lookupKey (list.map (fun e => (e.1, f e.1 e.2))) id = some (f id a) := by
  induction list with
  | nil => simp at hmem
  | cons e rest ih =>
    obtain ⟨k, w⟩ := e
    rcases List.mem_cons.mp hmem with heq | hmem2
    · cases heq
      simp [lookupKey]
    · have hnodup2 : (k :: rest.map Prod.fst).Nodup := by simpa using hnodup
      have hk : k ≠ id := by
        intro hx
        subst hx
        have hkeys : k ∈ rest.map Prod.fst := List.mem_map_of_mem Prod.fst hmem2
        exact (List.nodup_cons.mp hnodup2).1 hkeys
      have hrest : (rest.map Prod.fst).Nodup := (List.nodup_cons.mp hnodup2).2
      simpa [lookupKey, hk] using ih hmem2 hrest

theorem lookupKey_keyedMap_none {α β : Type} (f : String → α → β) (list : List (String × α))
    (id : String) (habs : id ∉ list.map Prod.fst) :
    lookupKey (list.map (fun e => (e.1, f e.1 e.2))) id = none := by
  induction list with
  | nil => simp [lookupKey]
  | cons e rest ih =>
    obtain ⟨k, w⟩ := e
    have hk : k ≠ id := by
      intro hx; exact habs (by simp [hx])
    have habs2 : id ∉ rest.map Prod.fst := fun hx => habs (by simp [hx])
    simpa [lookupKey, hk] using ih habs2

theorem lookupKey_settings (list : FeatureDescriptions) (p : Bool)
    (stored : Option FeatureStorage) (id : String) (d : FeatureDescription)
    (hmem : (id, d) ∈ list) (hnodup : (list.map Prod.fst).Nodup) :
    lookupKey (getExperimentalFeatureSettings list p stored) id =
      some (resolveFeature p (stored.getD []) id d) := by
  simpa [getExperimentalFeatureSettings] using
    lookupKey_keyedMap (fun i dd => resolveFeature p (stored.getD []) i dd) list id d hmem hnodup

theorem lookupKey_settings_none (list : FeatureDescriptions) (p : Bool)
    (stored : Option FeatureStorage) (id : String) (habs : id ∉ list.map Prod.fst) :
    lookupKey (getExperimentalFeatureSettings list p stored) id = none := by
  simpa [getExperimentalFeatureSettings] using
    lookupKey_keyedMap_none (fun i dd => resolveFeature p (stored.getD []) i dd) list id habs

theorem notifiedCallbacks_map (s : Option FeatureStorage) (subs : List Nat) :
    notifiedCallbacks (subs.map (fun cb => Event.notified cb s)) = subs := by
  induction subs with
  | nil => rfl
  | cons c rest ih => simpa [notifiedCallbacks, List.filterMap_cons] using ih

/-- C1 (counterexample): a call to setExperimentalFeature with the invalid
value garbage is not rejected: no exception reaches the caller, the entry
is written into the persisted map, and the subscriber is notified. -/
theorem c1_set_writes_invalid_value :
    (setExperimentalFeature false "x" "garbage" ⟨none, [0]⟩).threw = false ∧
    (setExperimentalFeature false "x" "garbage" ⟨none, [0]⟩).world.stored =
      some [("x", "garbage")] ∧
    notifiedCallbacks (setExperimentalFeature false "x" "garbage" ⟨none, [0]⟩).events = [0] := by
  refine ⟨rfl, ?_, ?_⟩ <;> rfl

/-- C1 (amended): the invalid-argument rejection lives in the modal Radio
onChange handler, not in setExperimentalFeature: for a value outside the
three allowed strings the handler throws before calling the write path,
so the world is unchanged and no write or notification event occurs. -/
theorem c1_radio_rejects_invalid (loggerThrows : Bool) (id value : String) (w : World)
    (h1 : value ≠ "default") (h2 : value ≠ "alwaysOn") (h3 : value ≠ "alwaysOff") :
    radioOnChange loggerThrows id value w = ⟨w, [], true⟩ := by
  simp [radioOnChange, h1, h2, h3]

/-- C1 (amended, witness): the handler rejects the value garbage. -/
theorem c1_radio_rejects_invalid_witness :
    radioOnChange false "x" "garbage" ⟨none, [0]⟩ = ⟨⟨none, [0]⟩, [], true⟩ :=
  c1_radio_rejects_invalid false "x" "garbage" ⟨none, [0]⟩ (by decide) (by decide) (by decide)

/-- C2 (counterexample): with an event logger that throws, a call to
setExperimentalFeature with a valid value propagates the exception to the
caller, and neither the storage write nor any notification happens. -/
theorem c2_logger_throw_blocks_write :
    (setExperimentalFeature true "x" "alwaysOn" ⟨none, [0]⟩).threw = true ∧
    (setExperimentalFeature true "x" "alwaysOn" ⟨none, [0]⟩).world = ⟨none, [0]⟩ ∧
    (setExperimentalFeature true "x" "alwaysOn" ⟨none, [0]⟩).events = [] :=
  ⟨rfl, rfl, rfl⟩

/-- C2 (amended): the logger is invoked before the write with no exception
handling, so whenever it throws the call aborts: the exception escapes,
the stored map is untouched and no subscriber is notified. -/
theorem c2_logger_throw_aborts (id value : String) (w : World) :
    setExperimentalFeature true id value w = ⟨w, [], true⟩ := rfl

/-- C3: for an id of the catalog, resolution yields a manually-set entry
exactly when the stored value is alwaysOn or alwaysOff (enabled tracking
the override, independent of the mode), and otherwise falls back to the
default selected by the environment mode with manuallySet false. -/
theorem c3_resolution_cases (list : FeatureDescriptions) (p : Bool)
    (stored : Option FeatureStorage) (id : String) (d : FeatureDescription)
    (hmem : (id, d) ∈ list) (hnodup : (list.map Prod.fst).Nodup) :
    lookupKey (getExperimentalFeatureSettings list p stored) id =
      some (if lookupKey (stored.getD []) id = some "alwaysOn" then ⟨true, true⟩
            else if lookupKey (stored.getD []) id = some "alwaysOff" then ⟨false, true⟩
            else ⟨getDefaultFor p d, false⟩) := by
  rw [lookupKey_settings list p stored id d hmem hnodup]
  simp only [resolveFeature]
  cases hov : lookupKey (stored.getD []) id with
  | none => simp
  | some v =>
    by_cases h1 : v = "alwaysOn"
    · subst h1; simp
    · by_cases h2 : v = "alwaysOff"
      · subst h2; simp
      · simp [h1, h2]

/-- C3 (witness): a concrete catalog with a stored alwaysOff override. -/
theorem c3_resolution_cases_witness :
    lookupKey (getExperimentalFeatureSettings [("a", ⟨"A", "", true, false⟩)] true
        (some [("a", "alwaysOff")])) "a" = some ⟨false, true⟩ := by
  have h := c3_resolution_cases [("a", ⟨"A", "", true, false⟩)] true
    (some [("a", "alwaysOff")]) "a" ⟨"A", "", true, false⟩ (by decide) (by decide)
  exact h.trans (by decide)

/-- C4: after writing alwaysOn for a catalog id the resolution of that id
is enabled and manually set; writing default afterwards returns it to the
environment-mode default with manuallySet false, from any starting map. -/
theorem c4_round_trip (list : FeatureDescriptions) (p : Bool) (w : World)
    (id : String) (d : FeatureDescription)
    (hmem : (id, d) ∈ list) (hnodup : (list.map Prod.fst).Nodup) :
    lookupKey (getExperimentalFeatureSettings list p
        (setExperimentalFeature false id "alwaysOn" w).world.stored) id = some ⟨true, true⟩ ∧
    lookupKey (getExperimentalFeatureSettings list p
        (setExperimentalFeature false id "default"
          (setExperimentalFeature false id "alwaysOn" w).world).world.stored) id =
      some ⟨getDefaultFor p d, false⟩ := by
  constructor
  · rw [lookupKey_settings list p _ id d hmem hnodup]
    have hstored : (setExperimentalFeature false id "alwaysOn" w).world.stored =
        some (setKey (w.stored.getD []) id "alwaysOn") := rfl
    rw [hstored]
    simp [resolveFeature, lookupKey_setKey_self]
  · rw [lookupKey_settings list p _ id d hmem hnodup]
    have hstored : (setExperimentalFeature false id "default"
        (setExperimentalFeature false id "alwaysOn" w).world).world.stored =
        some (delKey (setKey (w.stored.getD []) id "alwaysOn") id) := rfl
    rw [hstored]
    simp [resolveFeature, lookupKey_delKey_self]

/-- C4 (witness): the round trip on a one-flag catalog in production mode,
whose production default is off. -/
theorem c4_round_trip_witness :
    lookupKey (getExperimentalFeatureSettings [("a", ⟨"A", "", true, false⟩)] true
        (setExperimentalFeature false "a" "alwaysOn" ⟨none, []⟩).world.stored) "a" =
      some ⟨true, true⟩ ∧
    lookupKey (getExperimentalFeatureSettings [("a", ⟨"A", "", true, false⟩)] true
        (setExperimentalFeature false "a" "default"
          (setExperimentalFeature false "a" "alwaysOn" ⟨none, []⟩).world).world.stored) "a" =
      some ⟨false, false⟩ := by
  have h := c4_round_trip [("a", ⟨"A", "", true, false⟩)] true ⟨none, []⟩ "a"
    ⟨"A", "", true, false⟩ (by decide) (by decide)
  exact ⟨h.1, h.2⟩

/-- C5: in a completing call to the write path the event trace is exactly
the analytics event, then the write of the new map, then one notification
per subscriber, and every notification observes the newly written map
(which is also the final stored state). -/
theorem c5_write_before_notify (id value : String) (w : World) :
    ∃ m : FeatureStorage,
      (setExperimentalFeature false id value w).world.stored = some m ∧
      (setExperimentalFeature false id value w).events =
        Event.logged id value :: Event.wrote m ::
          w.subscribers.map (fun cb => Event.notified cb (some m)) :=
  ⟨_, rfl, rfl⟩

/-- C6: a completing call to the write path invokes exactly the callbacks
registered at call time, each exactly once, in registration order, within
the call itself (the notification loop runs before the call returns). -/
theorem c6_notify_once_in_order (id value : String) (w : World) :
    notifiedCallbacks (setExperimentalFeature false id value w).events = w.subscribers := by
  have h := notifiedCallbacks_map
    (some (if value == "default" then delKey (w.stored.getD []) id
           else setKey (w.stored.getD []) id value)) w.subscribers
  simpa [setExperimentalFeature, notifiedCallbacks, List.filterMap_cons] using h

/-- C7: an absent stored map, or an entry that is any string other than
alwaysOn or alwaysOff, resolves a catalog id to the environment default
with manuallySet false; resolution is total and never fails. -/
theorem c7_invalid_entry_defaults (list : FeatureDescriptions) (p : Bool)
    (stored : Option FeatureStorage) (id : String) (d : FeatureDescription)
    (hmem : (id, d) ∈ list) (hnodup : (list.map Prod.fst).Nodup)
    (h1 : lookupKey (stored.getD []) id ≠ some "alwaysOn")
    (h2 : lookupKey (stored.getD []) id ≠ some "alwaysOff") :
    lookupKey (getExperimentalFeatureSettings list p stored) id =
      some ⟨getDefaultFor p d, false⟩ := by
  rw [lookupKey_settings list p stored id d hmem hnodup]
  simp [resolveFeature, h1, h2]

/-- C7 (witness): a corrupted entry resolves to the production default. -/
theorem c7_invalid_entry_defaults_witness :
    lookupKey (getExperimentalFeatureSettings [("a", ⟨"A", "", true, false⟩)] true
        (some [("a", "bogus")])) "a" = some ⟨false, false⟩ :=
  c7_invalid_entry_defaults [("a", ⟨"A", "", true, false⟩)] true (some [("a", "bogus")]) "a"
    ⟨"A", "", true, false⟩ (by decide) (by decide) (by decide) (by decide)

/-- C8: both read entry points return false for an id that is not a key of
the catalog, whatever the persisted override map holds. -/
theorem c8_unknown_id_false (list : FeatureDescriptions) (p : Bool)
    (stored : Option FeatureStorage) (id : String)
    (habs : id ∉ list.map Prod.fst) :
    getExperimentalFeature list p stored id = false ∧
    useExperimentalFeature list p stored id = false := by
  have h := lookupKey_settings_none list p stored id habs
  constructor <;> simp [getExperimentalFeature, useExperimentalFeature, h]

/-- C8 (witness): an id outside the catalog reads as false even though the
stored map contains an alwaysOn entry for it. -/
theorem c8_unknown_id_false_witness :
    getExperimentalFeature [("a", ⟨"A", "", true, false⟩)] true
        (some [("zzz", "alwaysOn")]) "zzz" = false ∧
    useExperimentalFeature [("a", ⟨"A", "", true, false⟩)] true
        (some [("zzz", "alwaysOn")]) "zzz" = false :=
  c8_unknown_id_false [("a", ⟨"A", "", true, false⟩)] true (some [("zzz", "alwaysOn")]) "zzz"
    (by decide)

/-- C9: writing alwaysOff for an id twice in a row leaves the world (and
hence the persisted map) and the resolved settings identical to writing it
once, whether or not the event logger throws. -/
theorem c9_set_alwaysOff_idempotent (loggerThrows : Bool) (id : String) (w : World)
    (list : FeatureDescriptions) (p : Bool) :
    (setExperimentalFeature loggerThrows id "alwaysOff"
        (setExperimentalFeature loggerThrows id "alwaysOff" w).world).world =
      (setExperimentalFeature loggerThrows id "alwaysOff" w).world ∧
    getExperimentalFeatureSettings list p
        (setExperimentalFeature loggerThrows id "alwaysOff"
          (setExperimentalFeature loggerThrows id "alwaysOff" w).world).world.stored =
      getExperimentalFeatureSettings list p
        (setExperimentalFeature loggerThrows id "alwaysOff" w).world.stored := by
  have hvd : ("alwaysOff" == "default") = false := by decide
  have hw : (setExperimentalFeature loggerThrows id "alwaysOff"
      (setExperimentalFeature loggerThrows id "alwaysOff" w).world).world =
      (setExperimentalFeature loggerThrows id "alwaysOff" w).world := by
    cases loggerThrows with
    | true => rfl
    | false => simp [setExperimentalFeature, hvd, setKey_setKey_self]
  exact ⟨hw, by rw [hw]⟩

/-- C10: a call to the write path changes the stored entry of the written
id only: every other key, including stale ids absent from the catalog,
keeps exactly the value it had (and is never pruned). -/
theorem c10_frame_other_ids (loggerThrows : Bool) (id value k : String) (w : World)
    (hk : k ≠ id) :
    lookupKey ((setExperimentalFeature loggerThrows id value w).world.stored.getD []) k =
      lookupKey (w.stored.getD []) k := by
  cases loggerThrows with
  | true => rfl
  | false =>
    cases hvd : (value == "default") with
    | true =>
      simp only [setExperimentalFeature, Bool.false_eq_true, if_false, hvd, if_true,
        Option.getD_some]
      exact lookupKey_delKey_ne _ _ _ hk
    | false =>
      simp only [setExperimentalFeature, Bool.false_eq_true, if_false, hvd,
        Option.getD_some]
      exact lookupKey_setKey_ne _ _ _ _ hk

/-- C10 (witness): a stale entry for an id outside the catalog survives a
write to another id unchanged. -/
theorem c10_frame_other_ids_witness :
    lookupKey ((setExperimentalFeature false "a" "alwaysOn"
        ⟨some [("stale", "alwaysOff")], []⟩).world.stored.getD []) "stale" =
      lookupKey ((World.mk (some [("stale", "alwaysOff")]) []).stored.getD []) "stale" :=
  c10_frame_other_ids false "a" "alwaysOn" "stale" ⟨some [("stale", "alwaysOff")], []⟩
    (by decide)

end ExperimentalFeatures
